import Mathlib

/-!
Shallow embedding of `src/linefeed/scripts/benchmark.py`, the Linefeed
benchmark harness: duration extraction from interpreter diagnostics,
per-workload trial orchestration, statistics aggregation, and CSV export.

Modelling conventions:
* Python floats are modelled exactly: durations and the derived minimum,
  maximum and mean live in `ℚ`; the standard deviation, a square root,
  lives in `ℝ` (`statistics.stdev` computes the variance exactly over
  rationals and takes a float square root of it).
* The outside world seen by one trial of `run_benchmark` (the input file,
  the spawned interpreter process and its captured stderr, and Python's
  exceptions) is a `TrialEnv` value per trial index; `run_benchmark`
  becomes a pure function of that environment.
* The regex `Run time: (\d+(?:\.\d+)?)(s|ms|µs)` of `re.search` is embedded
  as a deterministic matcher: at a failing alternative the only characters
  backtracking could retry are a digit or a dot at the unit position, and
  neither can start the unit alternation, so maximal munch is equivalent.
  `\d` is modelled as the ASCII digits, the ones the benchmark texts use.
-/

namespace Linefeed

/-- Environment-determined outcome of one trial as `run_benchmark` sees it:
the input file may be unreadable (Python's `FileNotFoundError`), the
interpreter may exit non-zero (`subprocess.CalledProcessError`, carrying the
exception's text and the captured stderr), any other exception may occur, or
the process completes with some captured stderr text. -/
inductive TrialEnv where
  | inputNotFound : TrialEnv
  | processError (exnText : String) (stderr : String) : TrialEnv
  | unexpected (exnText : String) : TrialEnv
  | ran (stderr : String) : TrialEnv

/-- The literal characters `Run time: ` that the timing regex requires. -/
def runTimeTag : List Char := ['R', 'u', 'n', ' ', 't', 'i', 'm', 'e', ':', ' ']

/-- Whether the first list is an initial segment of the second. -/
def listStartsWith : List Char → List Char → Bool
  | [], _ => true
  | _ :: _, [] => false
  | p :: ps, c :: cs => p == c && listStartsWith ps cs

/-- The natural number denoted by a run of decimal digits. -/
def digitsVal (ds : List Char) : ℕ :=
  ds.foldl (fun a c => 10 * a + (c.toNat - 48)) 0

/-- Python's `float(value_str)` on a matched `<digits>` or `<digits>.<digits>`
group, exactly. -/
def ratOfParts (ip fp : List Char) : ℚ :=
  (digitsVal ip : ℚ) + (digitsVal fp : ℚ) / (10 : ℚ) ^ fp.length

/-- The regex unit alternation `(s|ms|µs)`, alternatives tried in order at the
current position. -/
def matchUnit : List Char → Option String
  | 's' :: _ => some ("s")
  | 'm' :: 's' :: _ => some ("ms")
  | 'µ' :: 's' :: _ => some ("µs")
  | _ => none

/-- One anchored attempt of `Run time: (\d+(?:\.\d+)?)(s|ms|µs)` at the head
of `cs`: the literal tag, one-or-more digits, an optional dot-plus-digits
fraction, then the unit. Returns the numeric group's value and the unit. -/
def matchRunTime (cs : List Char) : Option (ℚ × String) :=
  if listStartsWith runTimeTag cs then
    let after := cs.drop runTimeTag.length
    let ip := after.takeWhile Char.isDigit
    let r1 := after.dropWhile Char.isDigit
    if ip.isEmpty then none
    else
      match r1 with
      | '.' :: r2 =>
        let fp := r2.takeWhile Char.isDigit
        let r3 := r2.dropWhile Char.isDigit
        if fp.isEmpty then none
        else
          match matchUnit r3 with
          | some u => some (ratOfParts ip fp, u)
          | none => none
      | _ =>
        match matchUnit r1 with
        | some u => some (ratOfParts ip [], u)
        | none => none
  else none

/-- `re.search`: the anchored matcher applied at each position left to right,
first success wins. -/
def searchRunTime : List Char → Option (ℚ × String)
  | [] => matchRunTime []
  | c :: t =>
    match matchRunTime (c :: t) with
    | some r => some r
    | none => searchRunTime t

/-- The unit normalisation of `run_benchmark`: `ms` keeps the value, `µs`
divides by 1000, anything else (the regex only passes `s`) multiplies
by 1000. -/
def normalizeUnit (value : ℚ) (u : String) : ℚ :=
  if u = "ms" then value
  else if u = "µs" then value / 1000
  else value * 1000

/-- Duration extraction of one trial: first regex match in the captured
stderr, normalised to milliseconds; `none` is the trial's parse failure. -/
def extractRunTime (s : String) : Option ℚ :=
  (searchRunTime s.data).map (fun p => normalizeUnit p.1 p.2)

/-- The duration a trial environment yields: defined only when the process
ran and its stderr contains a parseable `Run time` line. -/
def trialDuration : TrialEnv → Option ℚ
  | .ran st => extractRunTime st
  | _ => none

/-- Whether a trial succeeds (process ran and a duration was extracted). -/
def trialOk (e : TrialEnv) : Bool := (trialDuration e).isSome

/-- The messages `run_benchmark` prints to the error stream at the failing
trial (trial index `i` counts from 0). -/
def failMsgs (e : TrialEnv) (stdin_file : String) (i : ℕ) : List String :=
  match e with
  | .inputNotFound => ["Error: Input file '" ++ stdin_file ++ "' not found."]
  | .processError ex st =>
      ["Error running Linefeed script: " ++ ex, "Stderr:\n" ++ st]
  | .unexpected ex => ["An unexpected error occurred: " ++ ex]
  | .ran st =>
      ["Error: Could not find 'Run time' in stderr for run " ++
        toString (i + 1) ++ ".", "Stderr:\n" ++ st]

/-- The `for i in range(runs)` loop of `run_benchmark`: `fuel` trials remain,
`i` is the current trial index, `acc` the durations appended so far. Returns
the final value of `run_times` (or `none` for Python's `return None`) and the
lines printed to the error stream. -/
def runBenchLoop (env : ℕ → TrialEnv) (stdin_file : String) :
    ℕ → ℕ → List ℚ → Option (List ℚ) × List String
  | 0, _, acc => (some acc, [])
  | fuel + 1, i, acc =>
    match env i with
    | .ran st =>
      match extractRunTime st with
      | some v => runBenchLoop env stdin_file fuel (i + 1) (acc ++ [v])
      | none => (none, failMsgs (.ran st) stdin_file i)
    | e => (none, failMsgs e stdin_file i)

/-- `run_benchmark(linefeed_script, stdin_file, runs)` over a trial
environment: the returned `list[float] | None` and the error-stream lines. -/
def run_benchmark (env : ℕ → TrialEnv) (linefeed_script stdin_file : String)
    (runs : ℕ) : Option (List ℚ) × List String :=
  let _ := linefeed_script
  runBenchLoop env stdin_file runs 0 []

/-- Per-workload statistics record (`BenchmarkStats` TypedDict): the four
statistics over a number type, and the run count. -/
structure BenchmarkStats (α : Type) where
  min : α
  max : α
  mean : α
  stdev : α
  runs : ℕ

/-- `SummaryData`: the statistics plus the workload script's basename. -/
structure SummaryData (α : Type) extends BenchmarkStats α where
  file_name : String

/-- `statistics.mean`: the exact arithmetic mean. -/
def pymean (xs : List ℚ) : ℚ := xs.sum / (xs.length : ℚ)

/-- `statistics.variance` with the sample (N−1) denominator, exactly. -/
def pyvariance (xs : List ℚ) : ℚ :=
  ((xs.map (fun y => (y - pymean xs) ^ 2)).sum) / ((xs.length - 1 : ℕ) : ℚ)

/-- `statistics.stdev`: square root of the sample variance (the float square
root idealised as the real one). -/
noncomputable def pystdev (xs : List ℚ) : ℝ :=
  Real.sqrt ((pyvariance xs : ℚ) : ℝ)

/-- `calculate_and_print_statistics`: `None` on an empty list, otherwise the
minimum, maximum, mean, the sample standard deviation for more than one run
and the literal 0 for a single run, and the run count. -/
noncomputable def calculate_and_print_statistics :
    List ℚ → Option (BenchmarkStats ℝ)
  | [] => none
  | x :: rest =>
    some ⟨((rest.foldl min x : ℚ) : ℝ), ((rest.foldl max x : ℚ) : ℝ),
      ((pymean (x :: rest) : ℚ) : ℝ),
      if 1 < (x :: rest).length then pystdev (x :: rest) else 0,
      (x :: rest).length⟩

/-- `os.path.basename`: the part of the path after the last `/`. -/
def basename (p : String) : String :=
  String.mk (p.data.foldl (fun acc c => if c = '/' then [] else acc ++ [c]) [])

/-- The body of `main`'s loop for one workload: `run_benchmark`, then the
`if run_times:` truthiness test (`None` and the empty list are falsy), then
`calculate_and_print_statistics` and the `if stats:` test, building the
`SummaryData` row with the script's basename. -/
noncomputable def rowFor (env : ℕ → TrialEnv) (script stdin_file : String)
    (runs : ℕ) : Option (SummaryData ℝ) :=
  match (run_benchmark env script stdin_file runs).1 with
  | none => none
  | some ts =>
    if ts.isEmpty then none
    else
      match calculate_and_print_statistics ts with
      | none => none
      | some st => some ⟨st, basename script⟩

/-- `main`'s iteration over the benchmark catalog, accumulating
`summary_data` in order: workload at catalog position `i` uses the trial
environment `env i`. -/
noncomputable def summaryFrom (env : ℕ → ℕ → TrialEnv) (runs : ℕ) :
    ℕ → List (String × String) → List (SummaryData ℝ)
  | _, [] => []
  | i, (script, file) :: cat =>
    match rowFor (env i) script file runs with
    | some row => row :: summaryFrom env runs (i + 1) cat
    | none => summaryFrom env runs (i + 1) cat

/-- The durations of the successful trials among trials `0 .. runs-1`, in
trial order (the successful-duration subsequence). -/
def successDurations (env : ℕ → TrialEnv) (runs : ℕ) : List ℚ :=
  (List.range runs).filterMap (fun i => trialDuration (env i))

/-- A run of `n` spaces. -/
def spacesStr (n : ℕ) : String := String.mk (List.replicate n ' ')

/-- A run of `n` zero digits. -/
def zerosStr (n : ℕ) : String := String.mk (List.replicate n '0')

/-- Python's `str.ljust`: pad on the right with spaces to width `w`. -/
def ljustStr (s : String) (w : ℕ) : String := s ++ spacesStr (w - s.length)

/-- Python's right alignment `f"{s:>w}"`: pad on the left with spaces. -/
def rjustStr (s : String) (w : ℕ) : String := spacesStr (w - s.length) ++ s

/-- `%.3f`-style fixed-point rendering of an exact rational (used on the
harness's non-negative statistics; the rounding of the underlying binary
float is idealised as rational rounding). -/
def fmt3 (x : ℚ) : String :=
  let n : ℤ := round (x * 1000)
  let a : ℕ := n.natAbs
  let frac := Nat.repr (a % 1000)
  (if n < 0 then "-" else "") ++ Nat.repr (a / 1000) ++ "." ++
    zerosStr (3 - frac.length) ++ frac

/-- A numeric CSV cell, `f"{value:>9.3f}"`. -/
def fmtCell9 (x : ℚ) : String := rjustStr (fmt3 x) 9

/-- The CSV header row of `write_summary_csv`. -/
def csvHeaderRow : List String :=
  ["File", "Mean (ms)", "Min (ms)", "Max (ms)", "Std Dev (ms)"]

/-- One data row of the CSV grid, cells rendered but not yet padded. -/
def csvDataRow (d : SummaryData ℚ) : List String :=
  [d.file_name, fmtCell9 d.mean, fmtCell9 d.min, fmtCell9 d.max,
    fmtCell9 d.stdev]

/-- `data_grid` of `write_summary_csv`: the header row then one row per
summary entry. -/
def csvGrid (data : List (SummaryData ℚ)) : List (List String) :=
  csvHeaderRow :: data.map csvDataRow

/-- Cell `j` of a row (rows always have 5 cells; out of range gives `""`). -/
def cellAt (row : List String) (j : ℕ) : String := row.getD j ("")

/-- `col_widths` entry `j`: the maximum rendered width of column `j` over
every row of the grid, the header included. -/
def colWidthAt (grid : List (List String)) (j : ℕ) : ℕ :=
  (grid.map (fun row => (cellAt row j).length)).foldr max 0

/-- The `col_widths` list (one width per column of the 5-column grid). -/
def colWidthsList (grid : List (List String)) : List ℕ :=
  (List.range csvHeaderRow.length).map (colWidthAt grid)

/-- The `", "` field delimiter of the CSV export. -/
def commaSep : String := ", "

/-- The newline written after each CSV row. -/
def nlStr : String := "\n"

/-- One written CSV line: each cell left-justified (`ljust`) to its column
width, joined by `", "`, then the terminating newline. -/
def csvLineOf (widths : List ℕ) (row : List String) : String :=
  String.intercalate commaSep
    ((row.zip widths).map (fun p => ljustStr p.1 p.2)) ++ nlStr

/-- The lines `write_summary_csv` writes, in order. -/
def csvLines (data : List (SummaryData ℚ)) : List String :=
  (csvGrid data).map (csvLineOf (colWidthsList (csvGrid data)))

/-- `write_summary_csv`: the full text written to the CSV file. -/
def write_summary_csv (data : List (SummaryData ℚ)) : String :=
  String.join (csvLines data)

/-- The CSV line builder exactly as claim C3's wording describes it — fields
LEFT-padded (right-aligned) to the column width. Stated from the claim's
words, not from the source, to compare against `csvLineOf`. -/
def csvLineOfLeftPad (widths : List ℕ) (row : List String) : String :=
  String.intercalate commaSep
    ((row.zip widths).map (fun p => rjustStr p.1 p.2)) ++ nlStr

/-- The CSV lines under claim C3's left-padded reading. -/
def csvLinesLeftPad (data : List (SummaryData ℚ)) : List String :=
  (csvGrid data).map (csvLineOfLeftPad (colWidthsList (csvGrid data)))

/-- `RUNS`: number of times each benchmark runs. -/
def RUNS : ℕ := 4

/-- `f"{day:02d}"`. -/
def pad2 (n : ℕ) : String := if n < 10 then "0" ++ Nat.repr n else Nat.repr n

/-- `make_pair_for_day`: the (script, input) paths for one advent day. -/
def make_pair_for_day (day : ℕ) : String × String :=
  ("tests/linefeed/advent_of_code_2020/day" ++ pad2 day ++ ".lf",
   "tests/linefeed/advent_of_code_2020/inputs/day" ++ pad2 day ++
     "-secret.txt")

/-- `BENCHMARKS`: the workload catalog, days 1 through 12 in order. -/
def BENCHMARKS : List (String × String) :=
  (List.range' 1 12).map make_pair_for_day

/-- The error-stream lines of the whole suite's trial loops, catalog order. -/
def workloadErrs (env : ℕ → ℕ → TrialEnv) (runs : ℕ) :
    ℕ → List (String × String) → List String
  | _, [] => []
  | i, (script, file) :: cat =>
    (run_benchmark (env i) script file runs).2 ++
      workloadErrs env runs (i + 1) cat

/-- The message `write_summary_csv` prints to the error stream when the
`IOError` handler fires. -/
def csvFailMsg (path e : String) : String :=
  "\nError writing to file '" ++ path ++ "': " ++ e

/-- What `main` leaves behind: whether the summary table was printed, the
error-stream lines, and the process exit status. -/
structure MainOut where
  tableShown : Bool
  errLines : List String
  exitCode : ℕ

/-- `main` over a per-workload trial environment: runs every catalog entry,
prints the summary table when `summary_data` is non-empty, then attempts the
CSV export when `--csv` gave a truthy path; an `IOError` while writing
(modelled by `csvIoError`) is caught and reported, and `main` always returns
exit status 0. -/
noncomputable def pymain (env : ℕ → ℕ → TrialEnv) (cat : List (String × String))
    (csvArg : Option String) (csvIoError : Option String) : MainOut :=
  let summary := summaryFrom env RUNS 0 cat
  let csvErrs :=
    if summary.isEmpty then []
    else
      match csvArg with
      | none => []
      | some p =>
        if p = "" then []
        else
          match csvIoError with
          | some e => [csvFailMsg p e]
          | none => []
  ⟨!summary.isEmpty, workloadErrs env RUNS 0 cat ++ csvErrs, 0⟩

/-! Concrete fixtures used by the per-claim witnesses and counterexamples. -/

/-- C1's counterexample environment: trial 0 succeeds, every later trial
fails on a missing input file. -/
def gridC1 : ℕ → ℕ → TrialEnv :=
  fun _ t => if t = 0 then .ran ("Run time: 1ms") else .inputNotFound

/-- C1's witness environment: every trial succeeds. -/
def envC1W : ℕ → TrialEnv := fun _ => .ran ("Run time: 6ms")

/-- C2's witness environment: trial 0 succeeds, trial 1 hits a missing
input file, later trials would succeed. -/
def envC2W : ℕ → TrialEnv :=
  fun i => if i = 0 then .ran ("Run time: 8ms")
    else if i = 1 then .inputNotFound
    else .ran ("Run time: 9ms")

/-- A variation of `envC2W` beyond the failing trial (trial 2 differs). -/
def envC2W' : ℕ → TrialEnv :=
  fun i => if i = 0 then .ran ("Run time: 8ms")
    else if i = 1 then .inputNotFound
    else .ran ("Run time: 77ms")

/-- The C2 witness's whole-suite grid: every workload behaves as `envC2W`. -/
def gridC2W : ℕ → ℕ → TrialEnv := fun _ => envC2W

/-- C3's counterexample summary row (integral statistics). -/
def c3row : SummaryData ℚ := ⟨⟨1, 2, 1, 0, 2⟩, "day01.lf"⟩

/-- C3's witness summary row. -/
def c3rowW : SummaryData ℚ := ⟨⟨3, 4, 3, 0, 1⟩, "day02.lf"⟩

/-- C8's counterexample environment: trial 0 succeeds, every later trial
exits non-zero. -/
def gridC8 : ℕ → ℕ → TrialEnv :=
  fun _ t => if t = 0 then .ran ("Run time: 3ms") else
    .processError ("boom") ("crash")

/-- C8's witness environment: every trial of every workload succeeds. -/
def gridC8W : ℕ → ℕ → TrialEnv := fun _ _ => .ran ("Run time: 5ms")

/-- C8's witness catalog. -/
def catC8W : List (String × String) := [(("w1.lf"), ("w1.txt"))]

/-- C9's witness environment: every trial succeeds. -/
def gridC9W : ℕ → ℕ → TrialEnv := fun _ _ => .ran ("Run time: 2ms")

/-- C9's all-failure environment: every trial of every workload fails on a
missing input file, so every workload is abandoned. -/
def gridC9F : ℕ → ℕ → TrialEnv := fun _ _ => .inputNotFound

/-- C9's witness catalog. -/
def catC9W : List (String × String) := [(("a.lf"), ("b.txt"))]

/-- C10's in-theorem environment: a success at trial 0, then a process
failure — the earlier success is discarded. -/
def envC10 : ℕ → TrialEnv :=
  fun i => if i = 0 then .ran ("Run time: 9ms") else
    .processError ("exit status 1") ("trace")

/-- C10's witness environment: every trial succeeds with 4 ms. -/
def envC10W : ℕ → TrialEnv := fun _ => .ran ("Run time: 4ms")

/-- C5's concrete duration list from the spec's worked example. -/
def statsEx : List ℚ := [10, 20, 30]

/-- C6's witness statistics record, the one `[5]` aggregates to. -/
def s5 : BenchmarkStats ℝ := ⟨5, 5, 5, 0, 1⟩

end Linefeed

namespace Linefeed

/-! ## Helper lemmas: the regex search scans left to right -/

lemma matchRunTime_nil : matchRunTime [] = none := rfl

lemma searchRunTime_nil : searchRunTime [] = matchRunTime [] := rfl

lemma searchRunTime_cons (c : Char) (t : List Char) :
    searchRunTime (c :: t) =
      match matchRunTime (c :: t) with
      | some r => some r
      | none => searchRunTime t := rfl

/-- The scan returns `none` exactly when the anchored matcher fails at every
position. -/
lemma searchRunTime_eq_none_iff (cs : List Char) :
    searchRunTime cs = none ↔ ∀ i, matchRunTime (cs.drop i) = none := by
  induction cs with
  | nil =>
    simp [searchRunTime_nil, matchRunTime_nil]
  | cons c t ih =>
    rw [searchRunTime_cons]
    cases hm : matchRunTime (c :: t) with
    | some r =>
      constructor
      · intro h; exact absurd h (by simp)
      · intro h
        have h0 := h 0
        rw [List.drop_zero, hm] at h0
        exact absurd h0 (by simp)
    | none =>
      rw [ih]
      constructor
      · intro h i
        cases i with
        | zero => simpa using hm
        | succ j => simpa using h j
      · intro h j
        simpa using h (j + 1)

/-- The scan returns the match found at the first matching position. -/
lemma searchRunTime_eq_some_of (i : ℕ) (cs : List Char) (r : ℚ × String)
    (hm : matchRunTime (cs.drop i) = some r)
    (hn : ∀ j, j < i → matchRunTime (cs.drop j) = none) :
    searchRunTime cs = some r := by
  induction i generalizing cs with
  | zero =>
    cases cs with
    | nil =>
      rw [searchRunTime_nil]
      simpa using hm
    | cons c t =>
      rw [searchRunTime_cons]
      rw [List.drop_zero] at hm
      rw [hm]
  | succ i ih =>
    have h0 := hn 0 (Nat.succ_pos i)
    rw [List.drop_zero] at h0
    cases cs with
    | nil =>
      rw [matchRunTime_nil] at h0
      rw [List.drop_nil] at hm
      rw [matchRunTime_nil] at hm
      exact absurd hm (by simp)
    | cons c t =>
      rw [searchRunTime_cons, h0]
      exact ih t (by simpa using hm)
        (fun j hj => by simpa using hn (j + 1) (Nat.succ_lt_succ hj))

end Linefeed

namespace Linefeed

/-! ## Claim C7: only the first `Run time` occurrence is used -/

/-- Claim C7: duration extraction uses only the first occurrence of
`Run time: <number><unit>` (number a non-negative decimal, unit one of
`s`, `ms`, `µs`) — the scan returns the match at the first matching
position, any text with no matching position is a parse failure, the first
of several timing lines wins, and an unrecognised unit (`ns`) or absent
pattern yields no fallback. -/
theorem extraction_first_match (cs : List Char) (i : ℕ) (v : ℚ) (u : String)
    (hm : matchRunTime (cs.drop i) = some (v, u))
    (hn : ∀ j, j < i → matchRunTime (cs.drop j) = none) :
    searchRunTime cs = some (v, u)
    ∧ (∀ ds : List Char, (∀ k, matchRunTime (ds.drop k) = none) →
        searchRunTime ds = none)
    ∧ extractRunTime ("Run time: 1s then Run time: 2ms") = some 1000
    ∧ extractRunTime ("Run time: 7ns") = none
    ∧ extractRunTime ("no timing") = none := by
  refine ⟨searchRunTime_eq_some_of i cs (v, u) hm hn,
    fun ds h => (searchRunTime_eq_none_iff ds).mpr h, ?_, rfl, rfl⟩
  have h1 : extractRunTime ("Run time: 1s then Run time: 2ms")
      = some (normalizeUnit (ratOfParts ['1'] []) ("s")) := rfl
  rw [h1]
  have h2 : digitsVal ['1'] = 1 := rfl
  have h0 : digitsVal [] = 0 := rfl
  simp [normalizeUnit, ratOfParts, h2, h0]

/-- Witness for C7 at a concrete text: the match at position 2 of
`x Run time: 3ms` (no earlier position matches) is what the scan returns,
and the first of two timing lines wins. -/
theorem extraction_first_match_witness :
    searchRunTime (String.data ("x Run time: 3ms"))
      = some (ratOfParts ['3'] [], ("ms"))
    ∧ extractRunTime ("Run time: 1s then Run time: 2ms") = some 1000 := by
  have h := extraction_first_match (String.data ("x Run time: 3ms")) 2
    (ratOfParts ['3'] []) ("ms") rfl (by decide)
  exact ⟨h.1, h.2.2.1⟩

/-! ## Claim C4: unit normalisation to milliseconds -/

/-- Claim C4: the extracted value is left unchanged for `ms`, divided by
1000 for `µs`, multiplied by 1000 for `s`; concretely `Run time: 2s` gives
2000 ms, `Run time: 500µs` gives 0.5 ms, `Run time: 42.5ms` gives
42.5 ms. -/
theorem unit_normalization (v : ℚ) :
    normalizeUnit v ("ms") = v
    ∧ normalizeUnit v ("µs") = v / 1000
    ∧ normalizeUnit v ("s") = v * 1000
    ∧ extractRunTime ("Run time: 2s") = some 2000
    ∧ extractRunTime ("Run time: 500µs") = some (1 / 2)
    ∧ extractRunTime ("Run time: 42.5ms") = some (85 / 2) := by
  refine ⟨by simp [normalizeUnit],
    by rw [normalizeUnit, if_neg (by decide), if_pos rfl],
    by rw [normalizeUnit, if_neg (by decide), if_neg (by decide)],
    ?_, ?_, ?_⟩
  · have h1 : extractRunTime ("Run time: 2s")
        = some (normalizeUnit (ratOfParts ['2'] []) ("s")) := rfl
    rw [h1]
    have h2 : digitsVal ['2'] = 2 := rfl
    have h0 : digitsVal [] = 0 := rfl
    simp [normalizeUnit, ratOfParts, h2, h0]
    norm_num
  · have h1 : extractRunTime ("Run time: 500µs")
        = some (normalizeUnit (ratOfParts ['5', '0', '0'] []) ("µs")) := rfl
    rw [h1]
    have h2 : digitsVal ['5', '0', '0'] = 500 := rfl
    have h0 : digitsVal [] = 0 := rfl
    simp [normalizeUnit, ratOfParts, h2, h0]
    norm_num
  · have h1 : extractRunTime ("Run time: 42.5ms")
        = some (normalizeUnit (ratOfParts ['4', '2'] ['5']) ("ms")) := rfl
    rw [h1]
    have h2 : digitsVal ['4', '2'] = 42 := rfl
    have h3 : digitsVal ['5'] = 5 := rfl
    simp [normalizeUnit, ratOfParts, h2, h3]
    norm_num

end Linefeed

namespace Linefeed

/-! ## Helper lemmas: the trial loop of `run_benchmark` -/

/-- A trial succeeds exactly when the process ran and a duration parsed. -/
lemma trialOk_ran (e : TrialEnv) (h : trialOk e = true) :
    ∃ st v, e = .ran st ∧ extractRunTime st = some v := by
  cases e with
  | ran st =>
    simp only [trialOk, trialDuration] at h
    obtain ⟨v, hv⟩ := Option.isSome_iff_exists.mp h
    exact ⟨st, v, rfl, hv⟩
  | inputNotFound => simp [trialOk, trialDuration] at h
  | processError ex st => simp [trialOk, trialDuration] at h
  | unexpected ex => simp [trialOk, trialDuration] at h

/-- A returned duration list has one entry per remaining trial. -/
lemma runBenchLoop_length (env : ℕ → TrialEnv) (file : String) :
    ∀ (fuel i : ℕ) (acc ts : List ℚ),
      (runBenchLoop env file fuel i acc).1 = some ts →
      ts.length = acc.length + fuel := by
  intro fuel
  induction fuel with
  | zero =>
    intro i acc ts h
    simp only [runBenchLoop] at h
    obtain rfl : acc = ts := by simpa using h
    simp
  | succ fuel ih =>
    intro i acc ts h
    cases he : env i with
    | ran st =>
      cases hx : extractRunTime st with
      | some v =>
        simp only [runBenchLoop, he, hx] at h
        have := ih (i + 1) (acc ++ [v]) ts h
        simp only [List.length_append, List.length_singleton] at this
        omega
      | none => simp [runBenchLoop, he, hx] at h
    | inputNotFound => simp [runBenchLoop, he] at h
    | processError ex st => simp [runBenchLoop, he] at h
    | unexpected ex => simp [runBenchLoop, he] at h

/-- When the trials before `i + m` succeed and trial `i + m` fails within the
remaining fuel, the loop stops at `i + m` with `None` and that trial's error
messages. -/
lemma runBenchLoop_fail (env : ℕ → TrialEnv) (file : String) :
    ∀ (m fuel i : ℕ) (acc : List ℚ), m < fuel →
      (∀ j, j < m → trialOk (env (i + j)) = true) →
      trialOk (env (i + m)) = false →
      runBenchLoop env file fuel i acc =
        (none, failMsgs (env (i + m)) file (i + m)) := by
  intro m
  induction m with
  | zero =>
    intro fuel i acc hf _ hfail
    obtain ⟨f, rfl⟩ : ∃ f, fuel = f + 1 := ⟨fuel - 1, by omega⟩
    simp only [Nat.add_zero] at hfail ⊢
    cases he : env i with
    | ran st =>
      have hx : extractRunTime st = none := by
        simp only [trialOk, trialDuration, he] at hfail
        exact Option.not_isSome_iff_eq_none.mp (by simp [hfail])
      simp [runBenchLoop, he, hx]
    | inputNotFound => simp [runBenchLoop, he]
    | processError ex st => simp [runBenchLoop, he]
    | unexpected ex => simp [runBenchLoop, he]
  | succ m ih =>
    intro fuel i acc hf hpre hfail
    obtain ⟨f, rfl⟩ : ∃ f, fuel = f + 1 := ⟨fuel - 1, by omega⟩
    obtain ⟨st, v, he, hx⟩ := trialOk_ran (env i) (by simpa using hpre 0 (Nat.succ_pos m))
    rw [show runBenchLoop env file (f + 1) i acc =
        runBenchLoop env file f (i + 1) (acc ++ [v]) by simp [runBenchLoop, he, hx]]
    have h1 : i + 1 + m = i + (m + 1) := by omega
    rw [show runBenchLoop env file f (i + 1) (acc ++ [v]) =
        (none, failMsgs (env (i + 1 + m)) file (i + 1 + m)) from
      ih f (i + 1) (acc ++ [v]) (by omega)
        (fun j hj => by
          have h2 : i + 1 + j = i + (j + 1) := by omega
          rw [h2]
          exact hpre (j + 1) (by omega))
        (by rw [h1]; exact hfail)]
    rw [h1]

/-- When every remaining trial succeeds, the loop returns the accumulated
list extended with each trial's duration, in trial order, and no errors. -/
lemma runBenchLoop_all_ok (env : ℕ → TrialEnv) (file : String) :
    ∀ (fuel i : ℕ) (acc : List ℚ),
      (∀ m, m < fuel → trialOk (env (i + m)) = true) →
      runBenchLoop env file fuel i acc =
        (some (acc ++ (List.range' i fuel).filterMap
          (fun j => trialDuration (env j))), []) := by
  intro fuel
  induction fuel with
  | zero =>
    intro i acc _
    simp [runBenchLoop]
  | succ fuel ih =>
    intro i acc h
    obtain ⟨st, v, he, hx⟩ := trialOk_ran (env i)
      (by simpa using h 0 (Nat.succ_pos fuel))
    have hd : trialDuration (env i) = some v := by rw [he]; simpa [trialDuration]
    rw [show runBenchLoop env file (fuel + 1) i acc =
        runBenchLoop env file fuel (i + 1) (acc ++ [v]) by simp [runBenchLoop, he, hx]]
    rw [ih (i + 1) (acc ++ [v]) (fun m hm => by
      have h2 : i + 1 + m = i + (m + 1) := by omega
      rw [h2]
      exact h (m + 1) (by omega))]
    rw [List.range'_succ i fuel 1, List.filterMap_cons, hd]
    simp

end Linefeed

namespace Linefeed

/-! ## Claim C10: all-or-nothing duration lists -/

/-- Claim C10: `run_benchmark` returns either `None` or a list of exactly
`runs` durations; a partial list of successes is never returned — in the
concrete environment `envC10` the successful first trial is discarded when
the second trial fails. -/
theorem run_benchmark_all_or_nothing (env : ℕ → TrialEnv)
    (script file : String) (runs : ℕ) (ts : List ℚ)
    (h : (run_benchmark env script file runs).1 = some ts) :
    ts.length = runs
    ∧ (run_benchmark envC10 ("w.lf") ("w.txt") 4).1 = none
    ∧ trialOk (envC10 0) = true := by
  refine ⟨?_, rfl, rfl⟩
  have h' : (runBenchLoop env file runs 0 []).1 = some ts := h
  simpa using runBenchLoop_length env file runs 0 [] ts h'

/-- Witness for C10: a two-trial environment where both trials succeed with
4 ms returns the full list `[4, 4]` of length 2. -/
theorem run_benchmark_all_or_nothing_witness :
    List.length ([(4 : ℚ), 4]) = 2
    ∧ (run_benchmark envC10 ("w.lf") ("w.txt") 4).1 = none
    ∧ trialOk (envC10 0) = true := by
  refine run_benchmark_all_or_nothing envC10W ("a.lf") ("a.txt") 2 [4, 4] ?_
  have hx : extractRunTime ("Run time: 4ms") = some 4 := by
    have h1 : extractRunTime ("Run time: 4ms")
        = some (normalizeUnit (ratOfParts ['4'] []) ("ms")) := rfl
    rw [h1]
    have h2 : digitsVal ['4'] = 4 := rfl
    have h0 : digitsVal [] = 0 := rfl
    simp [normalizeUnit, ratOfParts, h2, h0]
  have hok : ∀ m, m < 2 → trialOk (envC10W (0 + m)) = true := by
    intro m _
    simp [envC10W, trialOk, trialDuration, hx]
  have := runBenchLoop_all_ok envC10W ("a.txt") 2 0 [] hok
  rw [show run_benchmark envC10W ("a.lf") ("a.txt") 2
      = runBenchLoop envC10W ("a.txt") 2 0 [] from rfl, this]
  simp [List.range', trialDuration, envC10W, hx]

/-! ## Claim C2: first failure aborts the workload, not the suite -/

/-- Claim C2: with the trials before trial `k` succeeding and trial `k`
failing, `run_benchmark` returns `None` together with that trial's
descriptive error-stream message (which is never empty); the outcome is
unchanged under any environment that agrees up to trial `k` (the remaining
trials are never consulted); and a catalog entry that fails this way
contributes nothing while the rest of the catalog is processed
unchanged. -/
theorem workload_abort_on_first_failure (env : ℕ → TrialEnv)
    (script file : String) (runs k : ℕ)
    (hk : k < runs)
    (hpre : ∀ j, j < k → trialOk (env j) = true)
    (hfail : trialOk (env k) = false) :
    run_benchmark env script file runs = (none, failMsgs (env k) file k)
    ∧ failMsgs (env k) file k ≠ []
    ∧ (∀ env' : ℕ → TrialEnv, (∀ j, j ≤ k → env' j = env j) →
        run_benchmark env' script file runs = run_benchmark env script file runs)
    ∧ (∀ (grid : ℕ → ℕ → TrialEnv) (i : ℕ) (cat : List (String × String)),
        grid i = env →
        summaryFrom grid runs i ((script, file) :: cat) =
          summaryFrom grid runs (i + 1) cat) := by
  have base : ∀ (e : ℕ → TrialEnv), (∀ j, j ≤ k → e j = env j) →
      run_benchmark e script file runs = (none, failMsgs (env k) file k) := by
    intro e hagree
    have h1 : runBenchLoop e file runs 0 [] =
        (none, failMsgs (e (0 + k)) file (0 + k)) :=
      runBenchLoop_fail e file k runs 0 [] (by omega)
        (fun j hj => by
          rw [Nat.zero_add, hagree j (by omega)]
          exact hpre j hj)
        (by rw [Nat.zero_add, hagree k (le_refl k)]; exact hfail)
    rw [show run_benchmark e script file runs
        = runBenchLoop e file runs 0 [] from rfl, h1, Nat.zero_add,
      hagree k (le_refl k)]
  refine ⟨base env (fun _ _ => rfl), ?_,
    fun env' h => by rw [base env' h, base env (fun _ _ => rfl)], ?_⟩
  · cases he : env k <;> simp [failMsgs]
  · intro grid i cat hgi
    have hrow : rowFor (grid i) script file runs = none := by
      rw [rowFor, hgi, base env (fun _ _ => rfl)]
    rw [summaryFrom, hrow]

/-- Witness for C2: trial 0 of `envC2W` succeeds and trial 1 hits a missing
input file, so the workload aborts with the missing-file message, a changed
trial 2 cannot alter the outcome, and the failing catalog entry contributes
no summary row. -/
theorem workload_abort_on_first_failure_witness :
    run_benchmark envC2W ("c2.lf") ("c2.txt") 4
      = (none, failMsgs (envC2W 1) ("c2.txt") 1)
    ∧ failMsgs (envC2W 1) ("c2.txt") 1 ≠ []
    ∧ run_benchmark envC2W' ("c2.lf") ("c2.txt") 4
      = run_benchmark envC2W ("c2.lf") ("c2.txt") 4
    ∧ summaryFrom gridC2W 4 0 [(("c2.lf"), ("c2.txt"))]
      = summaryFrom gridC2W 4 1 [] := by
  have h := workload_abort_on_first_failure envC2W ("c2.lf") ("c2.txt") 4 1
    (by omega)
    (fun j hj => by
      have hj0 : j = 0 := by omega
      subst hj0
      decide)
    (by decide)
  exact ⟨h.1, h.2.1,
    h.2.2.1 envC2W' (fun j hj => by interval_cases j <;> rfl),
    h.2.2.2 gridC2W 0 [] rfl⟩

end Linefeed

namespace Linefeed

/-! ## Helper lemmas: folded minima/maxima and the exact mean -/

/-- Python's `min` over a non-empty list is one of its elements. -/
lemma foldl_min_mem (x : ℚ) (rest : List ℚ) : rest.foldl min x ∈ x :: rest := by
  induction rest generalizing x with
  | nil => simp
  | cons a t ih =>
    rw [List.foldl_cons]
    rcases List.mem_cons.mp (ih (min x a)) with h1 | h1
    · rcases min_choice x a with hc | hc
      · rw [h1, hc]; exact List.mem_cons_self _ _
      · rw [h1, hc]; exact List.mem_cons_of_mem _ (List.mem_cons_self _ _)
    · exact List.mem_cons_of_mem _ (List.mem_cons_of_mem _ h1)

/-- Python's `min` over a non-empty list bounds every element from below. -/
lemma foldl_min_le (x : ℚ) (rest : List ℚ) :
    ∀ y ∈ x :: rest, rest.foldl min x ≤ y := by
  induction rest generalizing x with
  | nil =>
    intro y hy
    rw [List.mem_singleton] at hy
    subst hy
    simp
  | cons a t ih =>
    intro y hy
    rw [List.foldl_cons]
    have hseed := ih (min x a) (min x a) (List.mem_cons_self _ _)
    rcases List.mem_cons.mp hy with h1 | h1
    · rw [h1]; exact le_trans hseed (min_le_left x a)
    · rcases List.mem_cons.mp h1 with h2 | h2
      · rw [h2]; exact le_trans hseed (min_le_right x a)
      · exact ih (min x a) y (List.mem_cons_of_mem _ h2)

/-- Python's `max` over a non-empty list is one of its elements. -/
lemma foldl_max_mem (x : ℚ) (rest : List ℚ) : rest.foldl max x ∈ x :: rest := by
  induction rest generalizing x with
  | nil => simp
  | cons a t ih =>
    rw [List.foldl_cons]
    rcases List.mem_cons.mp (ih (max x a)) with h1 | h1
    · rcases max_choice x a with hc | hc
      · rw [h1, hc]; exact List.mem_cons_self _ _
      · rw [h1, hc]; exact List.mem_cons_of_mem _ (List.mem_cons_self _ _)
    · exact List.mem_cons_of_mem _ (List.mem_cons_of_mem _ h1)

/-- Python's `max` over a non-empty list bounds every element from above. -/
lemma foldl_le_max (x : ℚ) (rest : List ℚ) :
    ∀ y ∈ x :: rest, y ≤ rest.foldl max x := by
  induction rest generalizing x with
  | nil =>
    intro y hy
    rw [List.mem_singleton] at hy
    subst hy
    simp
  | cons a t ih =>
    intro y hy
    rw [List.foldl_cons]
    have hseed := ih (max x a) (max x a) (List.mem_cons_self _ _)
    rcases List.mem_cons.mp hy with h1 | h1
    · rw [h1]; exact le_trans (le_max_left x a) hseed
    · rcases List.mem_cons.mp h1 with h2 | h2
      · rw [h2]; exact le_trans (le_max_right x a) hseed
      · exact ih (max x a) y (List.mem_cons_of_mem _ h2)

/-- A uniform lower bound on the elements bounds the sum from below. -/
lemma mul_length_le_sum (m : ℚ) (xs : List ℚ) (h : ∀ y ∈ xs, m ≤ y) :
    m * (xs.length : ℚ) ≤ xs.sum := by
  induction xs with
  | nil => simp
  | cons a t ih =>
    have ha := h a (List.mem_cons_self _ _)
    have ht := ih (fun y hy => h y (List.mem_cons_of_mem _ hy))
    simp only [List.sum_cons, List.length_cons]
    push_cast
    calc m * ((t.length : ℚ) + 1) = m * (t.length : ℚ) + m := by ring
    _ ≤ t.sum + a := add_le_add ht ha
    _ = a + t.sum := by ring

/-- A uniform upper bound on the elements bounds the sum from above. -/
lemma sum_le_mul_length (m : ℚ) (xs : List ℚ) (h : ∀ y ∈ xs, y ≤ m) :
    xs.sum ≤ m * (xs.length : ℚ) := by
  induction xs with
  | nil => simp
  | cons a t ih =>
    have ha := h a (List.mem_cons_self _ _)
    have ht := ih (fun y hy => h y (List.mem_cons_of_mem _ hy))
    simp only [List.sum_cons, List.length_cons]
    push_cast
    calc a + t.sum ≤ m + m * (t.length : ℚ) := add_le_add ha ht
    _ = m * ((t.length : ℚ) + 1) := by ring

/-- The minimum is at most the exact mean. -/
lemma min_le_pymean (x : ℚ) (rest : List ℚ) :
    rest.foldl min x ≤ pymean (x :: rest) := by
  have hlen : (0 : ℚ) < ((x :: rest).length : ℚ) := by
    exact_mod_cast Nat.succ_pos rest.length
  rw [pymean, le_div_iff₀ hlen]
  exact mul_length_le_sum _ _ (foldl_min_le x rest)

/-- The exact mean is at most the maximum. -/
lemma pymean_le_max (x : ℚ) (rest : List ℚ) :
    pymean (x :: rest) ≤ rest.foldl max x := by
  have hlen : (0 : ℚ) < ((x :: rest).length : ℚ) := by
    exact_mod_cast Nat.succ_pos rest.length
  rw [pymean, div_le_iff₀ hlen]
  exact sum_le_mul_length _ _ (foldl_le_max x rest)

/-- Casting a rational list sum to the reals sums the cast elements. -/
lemma cast_list_sum (xs : List ℚ) :
    ((xs.sum : ℚ) : ℝ) = (xs.map (fun y : ℚ => (y : ℝ))).sum := by
  induction xs with
  | nil => simp
  | cons a t ih =>
    rw [List.sum_cons, List.map_cons, List.sum_cons, ← ih]
    push_cast
    ring

/-- The exact rational mean, cast to the reals, is the real mean. -/
lemma cast_pymean (xs : List ℚ) :
    ((pymean xs : ℚ) : ℝ) = (xs.map (fun y : ℚ => (y : ℝ))).sum / (xs.length : ℝ) := by
  rw [pymean, Rat.cast_div, cast_list_sum, Rat.cast_natCast]

/-- The exact rational sample variance, cast to the reals, is the real
sample-variance formula with the N−1 denominator. -/
lemma cast_pyvariance (x : ℚ) (rest : List ℚ) :
    ((pyvariance (x :: rest) : ℚ) : ℝ) =
      (((x :: rest).map (fun y : ℚ => ((y : ℝ)
          - ((x :: rest).map (fun z : ℚ => (z : ℝ))).sum
            / ((x :: rest).length : ℝ)) ^ 2)).sum)
        / (((x :: rest).length : ℝ) - 1) := by
  have hm := cast_pymean (x :: rest)
  rw [pyvariance, Rat.cast_div, cast_list_sum, List.map_map]
  congr 1
  · refine congrArg List.sum (List.map_congr_left (fun y _ => ?_))
    simp only [Function.comp_apply]
    rw [← hm]
    push_cast
    ring
  · have h1 : (x :: rest).length - 1 = rest.length := by simp
    rw [Rat.cast_natCast, h1, List.length_cons]
    push_cast
    ring

end Linefeed

namespace Linefeed

/-! ## Claim C6: statistics invariants -/

/-- Claim C6: every `BenchmarkStats` built from a non-empty duration list
satisfies `min ≤ mean ≤ max`, and its standard deviation is exactly 0 when
exactly one duration is present. -/
theorem stats_invariant (x : ℚ) (rest : List ℚ) (s : BenchmarkStats ℝ)
    (h : calculate_and_print_statistics (x :: rest) = some s) :
    s.min ≤ s.mean ∧ s.mean ≤ s.max ∧ (s.runs = 1 → s.stdev = 0) := by
  rw [calculate_and_print_statistics] at h
  obtain rfl := (Option.some_inj.mp h).symm
  refine ⟨?_, ?_, ?_⟩
  · show ((rest.foldl min x : ℚ) : ℝ) ≤ ((pymean (x :: rest) : ℚ) : ℝ)
    exact_mod_cast min_le_pymean x rest
  · show ((pymean (x :: rest) : ℚ) : ℝ) ≤ ((rest.foldl max x : ℚ) : ℝ)
    exact_mod_cast pymean_le_max x rest
  · intro hr
    have hr' : rest.length = 0 := by
      have : (x :: rest).length = 1 := hr
      simpa using this
    obtain rfl := List.length_eq_zero.mp hr'
    show (if 1 < ([x] : List ℚ).length then pystdev [x] else 0) = 0
    norm_num

/-- Witness for C6 at the single duration `[5]`: the aggregated record `s5`
has `min ≤ mean ≤ max` and zero standard deviation. -/
theorem stats_invariant_witness :
    s5.min ≤ s5.mean ∧ s5.mean ≤ s5.max ∧ s5.stdev = 0 := by
  have hc : calculate_and_print_statistics [(5 : ℚ)] = some s5 := by
    rw [calculate_and_print_statistics]
    have h1 : pymean [(5 : ℚ)] = 5 := by norm_num [pymean]
    simp only [s5, h1, List.foldl_nil, List.length_singleton]
    norm_num
  have h := stats_invariant 5 [] s5 hc
  exact ⟨h.1, h.2.1, h.2.2 rfl⟩

/-! ## Claim C5: the aggregate statistics -/

/-- Claim C5: for every non-empty duration list the aggregation returns the
run count, the arithmetic mean, an attained lower bound (the minimum), an
attained upper bound (the maximum), standard deviation 0 for a single run
and the sample standard deviation with the N−1 denominator for more than
one run; concretely `[10, 20, 30]` gives min 10, max 30, mean 20, stdev 10,
runs 3. -/
theorem aggregate_statistics (x : ℚ) (rest : List ℚ) :
    ((calculate_and_print_statistics (x :: rest)).map (fun s => s.runs)
      = some (x :: rest).length)
    ∧ ((calculate_and_print_statistics (x :: rest)).map (fun s => s.mean)
      = some (((x :: rest).map (fun y : ℚ => (y : ℝ))).sum
          / ((x :: rest).length : ℝ)))
    ∧ (∀ s, calculate_and_print_statistics (x :: rest) = some s →
        (s.min ∈ (x :: rest).map (fun y : ℚ => (y : ℝ))
          ∧ ∀ y ∈ x :: rest, s.min ≤ (y : ℝ))
        ∧ (s.max ∈ (x :: rest).map (fun y : ℚ => (y : ℝ))
          ∧ ∀ y ∈ x :: rest, (y : ℝ) ≤ s.max)
        ∧ (rest = [] → s.stdev = 0)
        ∧ (rest ≠ [] → s.stdev = Real.sqrt
            ((((x :: rest).map (fun y : ℚ => ((y : ℝ)
                - ((x :: rest).map (fun z : ℚ => (z : ℝ))).sum
                  / ((x :: rest).length : ℝ)) ^ 2)).sum)
              / (((x :: rest).length : ℝ) - 1))))
    ∧ calculate_and_print_statistics statsEx = some ⟨10, 30, 20, 10, 3⟩ := by
  refine ⟨?_, ?_, ?_, ?_⟩
  · rw [calculate_and_print_statistics, Option.map_some']
  · rw [calculate_and_print_statistics, Option.map_some']
    show some ((pymean (x :: rest) : ℚ) : ℝ) = _
    rw [cast_pymean]
  · intro s hs
    rw [calculate_and_print_statistics] at hs
    obtain rfl := (Option.some_inj.mp hs).symm
    refine ⟨⟨?_, ?_⟩, ⟨?_, ?_⟩, ?_, ?_⟩
    · exact List.mem_map_of_mem (fun y : ℚ => (y : ℝ)) (foldl_min_mem x rest)
    · intro y hy
      show ((rest.foldl min x : ℚ) : ℝ) ≤ (y : ℝ)
      exact_mod_cast foldl_min_le x rest y hy
    · exact List.mem_map_of_mem (fun y : ℚ => (y : ℝ)) (foldl_max_mem x rest)
    · intro y hy
      show (y : ℝ) ≤ ((rest.foldl max x : ℚ) : ℝ)
      exact_mod_cast foldl_le_max x rest y hy
    · rintro rfl
      show (if 1 < ([x] : List ℚ).length then pystdev [x] else 0) = 0
      norm_num
    · intro hne
      obtain ⟨a, t, rfl⟩ : ∃ a t, rest = a :: t := by
        cases rest with
        | nil => exact absurd rfl hne
        | cons a t => exact ⟨a, t, rfl⟩
      show (if 1 < (x :: a :: t : List ℚ).length
          then pystdev (x :: a :: t) else 0) = _
      rw [if_pos (by simp)]
      rw [pystdev, cast_pyvariance]
  · show calculate_and_print_statistics ([10, 20, 30] : List ℚ)
      = some ⟨10, 30, 20, 10, 3⟩
    have hvar : pyvariance ([10, 20, 30] : List ℚ) = 100 := by
      norm_num [pyvariance, pymean]
    have hsd : pystdev ([10, 20, 30] : List ℚ) = 10 := by
      rw [pystdev, hvar]
      rw [show (((100 : ℚ) : ℝ)) = 10 ^ 2 by norm_num]
      exact Real.sqrt_sq (by norm_num)
    rw [calculate_and_print_statistics]
    simp only [Option.some.injEq, BenchmarkStats.mk.injEq]
    refine ⟨?_, ?_, ?_, ?_, by simp⟩
    · norm_num [List.foldl, min_def]
    · norm_num [List.foldl, max_def]
    · norm_num [pymean]
    · rw [if_pos (by simp), hsd]

end Linefeed

namespace Linefeed

/-! ## Helper lemmas: whole-workload outcomes -/

/-- `filterMap` keeps the length when the function succeeds everywhere. -/
lemma length_filterMap_of_all_isSome {α β : Type} (f : α → Option β)
    (l : List α) (h : ∀ a ∈ l, (f a).isSome = true) :
    (l.filterMap f).length = l.length := by
  induction l with
  | nil => simp
  | cons a t ih =>
    obtain ⟨b, hb⟩ := Option.isSome_iff_exists.mp (h a (List.mem_cons_self _ _))
    rw [List.filterMap_cons, hb]
    simp [ih (fun y hy => h y (List.mem_cons_of_mem _ hy))]

/-- When every trial succeeds, `run_benchmark` returns the full
successful-duration subsequence and prints nothing to the error stream. -/
lemma run_benchmark_all_ok (env : ℕ → TrialEnv) (script file : String)
    (runs : ℕ) (h : ∀ i, i < runs → trialOk (env i) = true) :
    run_benchmark env script file runs = (some (successDurations env runs), []) := by
  rw [show run_benchmark env script file runs
      = runBenchLoop env file runs 0 [] from rfl,
    runBenchLoop_all_ok env file runs 0 [] (fun m hm => by simpa using h m hm)]
  rw [successDurations, List.range_eq_range' runs]
  simp

/-- When some trial within range fails, `run_benchmark` returns `None`. -/
lemma run_benchmark_isNone_of_fail (env : ℕ → TrialEnv) (script file : String)
    (runs : ℕ) (h : ¬ ∀ i, i < runs → trialOk (env i) = true) :
    (run_benchmark env script file runs).1 = none := by
  push_neg at h
  obtain ⟨i, hi, hfi⟩ := h
  have hex : ∃ j, trialOk (env j) = false := by
    cases hb : trialOk (env i) with
    | false => exact ⟨i, hb⟩
    | true => exact absurd hb hfi
  have hkfail : trialOk (env (Nat.find hex)) = false := Nat.find_spec hex
  have hk_lt : Nat.find hex < runs := by
    have hple : trialOk (env i) = false := by
      cases hb : trialOk (env i) with
      | false => rfl
      | true => exact absurd hb hfi
    exact lt_of_le_of_lt (Nat.find_min' hex hple) hi
  have hfailure := runBenchLoop_fail env file (Nat.find hex) runs 0 [] hk_lt
    (fun j hj => by
      rw [Nat.zero_add]
      cases hb : trialOk (env j) with
      | true => rfl
      | false => exact absurd hb (Nat.find_min hex hj))
    (by rw [Nat.zero_add]; exact hkfail)
  rw [show run_benchmark env script file runs
      = runBenchLoop env file runs 0 [] from rfl, hfailure]

/-- The successful-duration subsequence has one entry per trial when every
trial succeeds. -/
lemma successDurations_length (env : ℕ → TrialEnv) (runs : ℕ)
    (h : ∀ i, i < runs → trialOk (env i) = true) :
    (successDurations env runs).length = runs := by
  rw [successDurations,
    length_filterMap_of_all_isSome (fun i => trialDuration (env i))
      (List.range runs)
      (fun a ha => h a (List.mem_range.mp ha))]
  exact List.length_range runs

/-! ## Claim C1: which workloads get a summary row -/

/-- Counterexample to claim C1 as stated: in the environment `gridC1` the
workload's first trial succeeds (it produced at least one successful trial),
yet the summary is empty — the workload yields no row, because a later
trial failed and `run_benchmark` discarded the whole workload. -/
theorem summary_row_counterexample :
    trialOk (gridC1 0 0) = true
    ∧ summaryFrom gridC1 4 0 [(("day01.lf"), ("day01.txt"))] = [] :=
  ⟨rfl, rfl⟩

/-- Claim C1 as amended: a workload yields a `BenchmarkStats` and one
summary row exactly when it has at least one trial and every one of its
trials succeeded; the row then carries the script's basename, `runs` equal
to the trial count, and the statistics aggregated from the workload's
successful-duration subsequence (which is then all of its trials). -/
theorem summary_row_iff_all_trials_succeed (env : ℕ → TrialEnv)
    (script file : String) (runs : ℕ) :
    (rowFor env script file runs ≠ none
      ↔ (0 < runs ∧ ∀ i, i < runs → trialOk (env i) = true))
    ∧ (∀ row, rowFor env script file runs = some row →
        row.file_name = basename script
        ∧ row.runs = runs
        ∧ calculate_and_print_statistics (successDurations env runs)
            = some row.toBenchmarkStats) := by
  constructor
  · constructor
    · intro hne
      by_cases hall : ∀ i, i < runs → trialOk (env i) = true
      · refine ⟨?_, hall⟩
        cases runs with
        | zero => exact absurd (show rowFor env script file 0 = none from rfl) hne
        | succ n => exact Nat.succ_pos n
      · exfalso
        have h1 := run_benchmark_isNone_of_fail env script file runs hall
        have : rowFor env script file runs = none := by
          unfold rowFor
          rw [h1]
        exact hne this
    · rintro ⟨hpos, hall⟩
      have hlen := successDurations_length env runs hall
      have hrb := run_benchmark_all_ok env script file runs hall
      unfold rowFor
      rw [hrb]
      cases hsd : successDurations env runs with
      | nil =>
        rw [hsd] at hlen
        simp at hlen
        omega
      | cons d ds => simp [calculate_and_print_statistics]
  · intro row hrow
    by_cases hall : ∀ i, i < runs → trialOk (env i) = true
    · have hlen := successDurations_length env runs hall
      have hrb := run_benchmark_all_ok env script file runs hall
      unfold rowFor at hrow
      rw [hrb] at hrow
      cases hsd : successDurations env runs with
      | nil =>
        rw [hsd] at hrow
        simp at hrow
      | cons d ds =>
        rw [hsd] at hrow hlen
        dsimp only at hrow
        rw [show ((d :: ds : List ℚ).isEmpty) = false from rfl] at hrow
        simp only [Bool.false_eq_true, if_false,
          calculate_and_print_statistics, Option.some.injEq] at hrow
        obtain rfl := hrow.symm
        refine ⟨rfl, ?_, ?_⟩
        · exact hlen
        · rfl
    · exfalso
      have h1 := run_benchmark_isNone_of_fail env script file runs hall
      have : rowFor env script file runs = none := by
        unfold rowFor
        rw [h1]
      rw [this] at hrow
      exact Option.noConfusion hrow

end Linefeed

namespace Linefeed

/-- A produced summary row's file name is the workload script's basename. -/
lemma rowFor_file_name (env : ℕ → TrialEnv) (script file : String)
    (runs : ℕ) (row : SummaryData ℝ)
    (h : rowFor env script file runs = some row) :
    row.file_name = basename script := by
  unfold rowFor at h
  cases hrb : (run_benchmark env script file runs).1 with
  | none =>
    rw [hrb] at h
    exact Option.noConfusion h
  | some ts =>
    rw [hrb] at h
    cases ts with
    | nil => simp at h
    | cons d ds =>
      dsimp only at h
      rw [show ((d :: ds : List ℚ).isEmpty) = false from rfl] at h
      simp only [Bool.false_eq_true, if_false,
        calculate_and_print_statistics, Option.some.injEq] at h
      obtain rfl := h.symm
      rfl

/-! ## Claim C8: summary rows keep catalog order -/

/-- Counterexample to claim C8's skip condition as stated: in `gridC8` the
workload's first trial succeeds (it does not have zero successes), yet it is
skipped — the summary is empty because a later trial exited non-zero. -/
theorem summary_order_counterexample :
    trialOk (gridC8 0 0) = true
    ∧ summaryFrom gridC8 4 0 [(("x.lf"), ("x.txt"))] = [] :=
  ⟨rfl, rfl⟩

/-- Claim C8 as amended: the summary rows are exactly the catalog entries,
in catalog iteration order, each mapped independently through `rowFor` and
kept only when `run_benchmark` returned a complete non-empty duration list
(no statistic-based reordering); in particular the rows' file names form an
order-preserving sublist of the catalog's script basenames. -/
theorem summary_order_matches_catalog (env : ℕ → ℕ → TrialEnv)
    (runs i : ℕ) (cat : List (String × String)) :
    summaryFrom env runs i cat
      = (cat.enumFrom i).filterMap
          (fun p => rowFor (env p.1) p.2.1 p.2.2 runs)
    ∧ List.Sublist ((summaryFrom env runs i cat).map (fun r => r.file_name))
        (cat.map (fun w => basename w.1)) := by
  induction cat generalizing i with
  | nil => exact ⟨rfl, List.nil_sublist _⟩
  | cons w cat ih =>
    obtain ⟨script, file⟩ := w
    have ihf := ih (i + 1)
    have he : List.enumFrom i ((script, file) :: cat)
        = (i, (script, file)) :: List.enumFrom (i + 1) cat := rfl
    constructor
    · cases hr : rowFor (env i) script file runs with
      | some row =>
        simp only [summaryFrom, hr]
        rw [he, List.filterMap_cons]
        simp only [hr]
        rw [ihf.1]
      | none =>
        simp only [summaryFrom, hr]
        rw [he, List.filterMap_cons]
        simp only [hr]
        exact ihf.1
    · cases hr : rowFor (env i) script file runs with
      | some row =>
        simp only [summaryFrom, hr, List.map_cons]
        rw [rowFor_file_name (env i) script file runs row hr]
        exact List.Sublist.cons₂ _ ihf.2
      | none =>
        simp only [summaryFrom, hr, List.map_cons]
        exact List.Sublist.cons _ ihf.2

end Linefeed

namespace Linefeed

/-! ## Helper lemmas: CSV padding and column widths -/

lemma spacesStr_length (n : ℕ) : (spacesStr n).length = n := by
  simp [spacesStr, String.length]

lemma ljustStr_length (s : String) (w : ℕ) (h : s.length ≤ w) :
    (ljustStr s w).length = w := by
  rw [ljustStr, String.length_append, spacesStr_length]
  omega

/-- Every element is at most the folded maximum. -/
lemma le_foldr_max (l : List ℕ) : ∀ x ∈ l, x ≤ l.foldr max 0 := by
  induction l with
  | nil => intro x hx; simp at hx
  | cons a t ih =>
    intro x hx
    rw [List.foldr_cons]
    rcases List.mem_cons.mp hx with h1 | h1
    · rw [h1]; exact le_max_left _ _
    · exact le_trans (ih x h1) (le_max_right _ _)

/-- The folded maximum of a non-empty list is attained. -/
lemma foldr_max_mem (l : List ℕ) (h : l ≠ []) : l.foldr max 0 ∈ l := by
  induction l with
  | nil => exact absurd rfl h
  | cons a t ih =>
    rw [List.foldr_cons]
    cases t with
    | nil => simp
    | cons b u =>
      rcases max_choice a ((b :: u).foldr max 0) with hc | hc
      · rw [hc]; exact List.mem_cons_self _ _
      · rw [hc]; exact List.mem_cons_of_mem _ (ih (by simp))

/-- Every grid row has the header's number of cells. -/
lemma csvGrid_rows_length (data : List (SummaryData ℚ)) :
    ∀ row ∈ csvGrid data, row.length = csvHeaderRow.length := by
  intro row hrow
  rcases List.mem_cons.mp hrow with h | h
  · rw [h]
  · obtain ⟨d, _, rfl⟩ := List.mem_map.mp h
    rfl

/-- `fmt3` once the rounded scaled value is known. -/
lemma fmt3_eq (x : ℚ) (n : ℤ) (h : round (x * 1000) = n) :
    fmt3 x = (if n < 0 then "-" else "") ++ Nat.repr (n.natAbs / 1000)
      ++ "." ++ zerosStr (3 - (Nat.repr (n.natAbs % 1000)).length)
      ++ Nat.repr (n.natAbs % 1000) := by
  simp only [fmt3, h]

/-! ## Claim C3: CSV export field counts, widths and padding -/

/-- Counterexample to claim C3 as stated: on the concrete summary `[c3row]`
the written lines differ from the lines the claim's left-padded reading
would produce — `write_summary_csv` left-justifies (pads on the right). -/
theorem csv_left_padding_counterexample :
    csvLines [c3row] ≠ csvLinesLeftPad [c3row] := by
  have f1 : fmt3 (1 : ℚ) = "1.000" :=
    (fmt3_eq 1 1000 (by norm_num [round_eq])).trans rfl
  have f2 : fmt3 (2 : ℚ) = "2.000" :=
    (fmt3_eq 2 2000 (by norm_num [round_eq])).trans rfl
  have f0 : fmt3 (0 : ℚ) = "0.000" :=
    (fmt3_eq 0 0 (by norm_num [round_eq])).trans rfl
  simp only [csvLines, csvLinesLeftPad, csvGrid, c3row, csvDataRow,
    fmtCell9, f1, f2, f0]
  decide

/-- Claim C3 as amended: the header row and every data row of the CSV grid
have the same number of fields; every column's width is the maximum rendered
width of that column across all rows, header included (an attained bound);
every written field is its cell padded on the right (left-justified, not
left-padded) to exactly that width; and each written line is the `", "`-join
of its padded cells terminated by a newline. -/
theorem csv_alignment (data : List (SummaryData ℚ)) :
    (∀ row ∈ csvGrid data, row.length = csvHeaderRow.length)
    ∧ (∀ j, ∀ row ∈ csvGrid data,
        (cellAt row j).length ≤ colWidthAt (csvGrid data) j)
    ∧ (∀ j, ∃ row, row ∈ csvGrid data
        ∧ colWidthAt (csvGrid data) j = (cellAt row j).length)
    ∧ (∀ j, ∀ row ∈ csvGrid data,
        ljustStr (cellAt row j) (colWidthAt (csvGrid data) j)
          = cellAt row j
            ++ spacesStr (colWidthAt (csvGrid data) j - (cellAt row j).length)
        ∧ (ljustStr (cellAt row j) (colWidthAt (csvGrid data) j)).length
            = colWidthAt (csvGrid data) j)
    ∧ csvLines data = (csvGrid data).map
        (fun row => String.intercalate commaSep
          ((row.zip (colWidthsList (csvGrid data))).map
            (fun p => ljustStr p.1 p.2)) ++ nlStr) := by
  have hle : ∀ j, ∀ row ∈ csvGrid data,
      (cellAt row j).length ≤ colWidthAt (csvGrid data) j := by
    intro j row hrow
    exact le_foldr_max _ _
      (List.mem_map_of_mem (fun row => (cellAt row j).length) hrow)
  refine ⟨csvGrid_rows_length data, hle, ?_, ?_, rfl⟩
  · intro j
    have hne : (csvGrid data).map (fun row => (cellAt row j).length) ≠ [] := by
      simp [csvGrid]
    obtain ⟨row, hrow, heq⟩ := List.mem_map.mp (foldr_max_mem _ hne)
    exact ⟨row, hrow, heq.symm⟩
  · intro j row hrow
    exact ⟨rfl, ljustStr_length _ _ (hle j row hrow)⟩

/-! ## Claim C9: the harness always exits successfully -/

/-- Claim C9: `main` returns exit status 0 for every trial environment,
every catalog and every flag combination — the all-workloads-failed suite
included, as the `gridC9F` conjuncts state concretely (the embedding is
total: every modelled exception is caught at the trial or CSV boundary);
and whenever the summary was produced and a truthy CSV path was given, an
`IOError` while writing puts its message on the error stream while the
already-printed console summary stands. -/
theorem harness_exit_success (env : ℕ → ℕ → TrialEnv)
    (cat : List (String × String)) (p e : String) :
    (∀ (a : Option String) (ioe : Option String),
        (pymain env cat a ioe).exitCode = 0)
    ∧ (pymain gridC9F catC9W (some ("x.csv")) none).exitCode = 0
    ∧ (pymain gridC9F catC9W (some ("x.csv")) none).tableShown = false
    ∧ (p ≠ "" → (summaryFrom env RUNS 0 cat).isEmpty = false →
        (pymain env cat (some p) (some e)).tableShown = true
        ∧ csvFailMsg p e ∈ (pymain env cat (some p) (some e)).errLines) := by
  refine ⟨fun a ioe => rfl, rfl, rfl, fun hp hs => ⟨?_, ?_⟩⟩
  · show (!(summaryFrom env RUNS 0 cat).isEmpty) = true
    rw [hs]
    rfl
  · show csvFailMsg p e ∈ workloadErrs env RUNS 0 cat ++
      (if (summaryFrom env RUNS 0 cat).isEmpty then []
        else if p = "" then []
        else [csvFailMsg p e])
    rw [hs]
    simp [hp]

/-- Witness for C9: the all-failure suite `gridC9F` still exits 0 with no
summary table, and a fully successful one-workload run with a failing CSV
write exits 0, shows the table, and reports the write failure on the error
stream. -/
theorem harness_exit_success_witness :
    (pymain gridC9F catC9W (some ("out.csv")) none).exitCode = 0
    ∧ (pymain gridC9W catC9W (some ("out.csv"))
        (some ("disk full"))).exitCode = 0
    ∧ (pymain gridC9W catC9W (some ("out.csv"))
        (some ("disk full"))).tableShown = true
    ∧ csvFailMsg ("out.csv") ("disk full")
      ∈ (pymain gridC9W catC9W (some ("out.csv"))
          (some ("disk full"))).errLines := by
  have hf := harness_exit_success gridC9F catC9W ("out.csv") ("e")
  have hw := harness_exit_success gridC9W catC9W ("out.csv") ("disk full")
  have hcsv := hw.2.2.2 (by decide) rfl
  exact ⟨hf.1 (some ("out.csv")) none,
    hw.1 (some ("out.csv")) (some ("disk full")), hcsv.1, hcsv.2⟩

end Linefeed
